import Mathlib

/-!
Verification development for `src/Oving8/task3.py` (vowel transformation via
AR/LPC modelling).

The program is embedded shallowly over exact rational samples (`ℚ`).  Machine
floats are modelled by exact arithmetic; where the Python code divides by zero
(`np.max(np.abs(transformed)) == 0`), the rational model yields `0` (Lean's
division-by-zero convention) where IEEE arithmetic would yield NaN — neither is
an exception.

External library calls are embedded by the mathematical function they compute:
* `soundfile.read` is modelled by passing the decoded audio content
  (`AudioData` plus the file's native sample rate) directly to `load_vowel`;
* `scipy.signal.lfilter(b, a, x)` is the standard direct-form difference
  equation `a[0]*y[n] = sum b[k]*x[n-k] - sum_{k>=1} a[k]*y[n-k]`, producing
  one output sample per input sample;
* `pysptk.sptk.lpc(signal, order)` is the autocorrelation/Levinson-Durbin
  method (the algorithm the library implements), returning
  `[gain, a1, ..., a_order]`.  The real library returns the square root of the
  final prediction error as the gain; the model returns the prediction error
  itself — no claim inspects the gain's numeric value.
* `np.random.randn` is modelled by an explicit stream `noise : ℕ → ℚ` of
  pseudo-random draws; the stream is threaded into the functions that could
  consume it, making dependence (or independence) on randomness provable.
-/

set_option autoImplicit false

/-- `Fs = 8000`, the sampling frequency in Hz (task3.py line 10). -/
def Fs : ℕ := 8000

/-- `AR_ORDER = 10`, the AR model order for vowels (task3.py line 11). -/
def AR_ORDER : ℕ := 10

/-- Decoded audio content as produced by `soundfile.read`: a 1-D array (mono)
or a 2-D frames-by-channels array (multi-channel). -/
inductive AudioData where
  | mono (samples : List ℚ)
  | multi (frames : List (List ℚ))

/-- `load_vowel` (task3.py lines 13-21) after the external decode: the file is
modelled by its decoded content `data` and native sample rate `fs`.  If the
data is multi-channel (`len(data.shape) > 1`), only the first channel
(`data[:, 0]`) is kept; otherwise the samples are returned unmodified.  The
sample-rate comparison at line 16 only prints a warning (see
`load_vowel_warns`) and does not touch the data. -/
def load_vowel (data : AudioData) (fs : ℕ) : List ℚ :=
  match data with
  | AudioData.mono samples => samples
  | AudioData.multi frames => frames.map (fun frame => frame.headD 0)

/-- Whether `load_vowel` prints the sample-rate warning (task3.py lines
16-17): true exactly when the file's native rate differs from `Fs`. -/
def load_vowel_warns (fs : ℕ) : Bool := fs != Fs

/-- Autocorrelation of `x` at lag `j`: `r[j] = sum_{i} x[i] * x[i+j]`, the
quantity the autocorrelation LPC method (pysptk's `lpc`) computes for lags
`0..order`.  Lags at or beyond the signal length give an empty sum, hence 0. -/
def autocorr (x : List ℚ) (j : ℕ) : ℚ :=
  ∑ i ∈ Finset.range (x.length - j), x.getD i 0 * x.getD (i + j) 0

/-- Levinson-Durbin recursion on the autocorrelation of `x`: `levinson x m`
returns the order-`m` predictor coefficients `[a1, ..., am]` (convention
`A(z) = 1 + a1 z⁻¹ + ... + am z⁻ᵐ`) together with the order-`m` prediction
error.  This is the algorithm behind the external `pysptk.sptk.lpc` call at
task3.py line 36, and gives the value of the call on the success path only:
the library raises an exception exactly when a prediction error becomes
degenerate (zero), the condition captured by `levinson_ok` below; the `_run`
functions combine the two into the full call-with-exceptions model, and no
theorem asserts a successful return outside `levinson_ok`. -/
def levinson (x : List ℚ) : ℕ → List ℚ × ℚ
  | 0 => ([], autocorr x 0)
  | m + 1 =>
    let p := levinson x m
    let a := p.1
    let E := p.2
    let k := (autocorr x (m + 1) + ∑ i ∈ Finset.range m, a.getD i 0 * autocorr x (m - i)) / E
    ((List.range m).map (fun i => a.getD i 0 - k * a.getD (m - 1 - i) 0) ++ [-k],
     E * (1 - k * k))

/-- Model of the external `pysptk.sptk.lpc(signal, order)` (task3.py line 36):
the returned vector is `[b, a1, ..., a_order]` where `b` is the gain and
`a1..a_order` the AR coefficients, exactly the layout the Python comment at
lines 33-34 describes.  The library performs no check that the signal is
longer than the order: autocorrelation lags beyond the signal length are
simply 0. -/
def lpc (signal : List ℚ) (order : ℕ) : List ℚ :=
  (levinson signal order).2 :: (levinson signal order).1

/-- `extract_ar_coefficients` (task3.py lines 31-43): calls `lpc`, prepends
the fixed `a0 = 1` to the AR part (`np.concatenate([[1], coeffs[1:]])`) and
returns the gain `coeffs[0]` separately.  The Python function reads the
module-wide constant `AR_ORDER`; here the order is an explicit parameter (the
spec's `analyze(waveform, order)`), and every caller in the program passes
`AR_ORDER`. -/
def extract_ar_coefficients (signal : List ℚ) (order : ℕ) : List ℚ × ℚ :=
  let coeffs := lpc signal order
  (1 :: coeffs.tail, coeffs.headD 0)

/-- `generate_excitation` (task3.py lines 45-50): `np.random.randn(n)`, i.e.
the next `signal_length` draws from the random stream.  Not called by
`transform_vowel`. -/
def generate_excitation (noise : ℕ → ℚ) (signal_length : ℕ) : List ℚ :=
  (List.range signal_length).map noise

/-- Output sample `n` of the direct-form difference equation of
`scipy.signal.lfilter(b, a, x)`, given the previously produced outputs `ys`:
`y[n] = (sum_{k<=n} b[k]*x[n-k] - sum_{1<=k<=n} a[k]*y[n-k]) / a[0]`, with
coefficients past the end of `b` or `a` absent and division by `a[0]`
(division by zero, which scipy turns into NaN outputs, yields 0 in the
rational model). -/
def lfilterOut (b a x ys : List ℚ) (n : ℕ) : ℚ :=
  ((∑ k ∈ Finset.range b.length,
      if k ≤ n then b.getD k 0 * x.getD (n - k) 0 else 0)
    - ∑ k ∈ Finset.range (a.length - 1),
      if k + 1 ≤ n then a.getD (k + 1) 0 * ys.getD (n - (k + 1)) 0 else 0)
  / a.getD 0 0

/-- Outputs `y[0..n-1]` of `scipy.signal.lfilter(b, a, x)`: each new sample is
`lfilterOut` of the samples already produced. -/
def lfilterPrefix (b a x : List ℚ) : ℕ → List ℚ
  | 0 => []
  | n + 1 =>
    let ys := lfilterPrefix b a x n
    ys ++ [lfilterOut b a x ys n]

/-- Model of `scipy.signal.lfilter(b, a, x)` (task3.py lines 62 and 65): one
output sample per input sample, zero initial conditions. -/
def lfilter (b a x : List ℚ) : List ℚ :=
  lfilterPrefix b a x x.length

/-- `np.max(np.abs(x))` (task3.py line 68) for a waveform: the peak absolute
amplitude.  For the nonempty waveforms the program feeds it this equals the
maximum of the `|x i|`; the fold starts at 0, which is a lower bound of every
absolute value. -/
def max_abs (x : List ℚ) : ℚ :=
  x.foldl (fun m v => max m (|v|)) 0

/-- The value `transformed` of task3.py line 65, before normalization: the
source's AR coefficients applied as an inverse (FIR) filter to the source
(line 62), then the target's AR coefficients applied as a synthesis (IIR)
filter (line 65). -/
def transform_pre (source_vowel target_vowel : List ℚ) : List ℚ :=
  let a_target := (extract_ar_coefficients target_vowel AR_ORDER).1
  let a_source := (extract_ar_coefficients source_vowel AR_ORDER).1
  let excitation := lfilter a_source [1] source_vowel
  lfilter [1] a_target excitation

/-- `transform_vowel` (task3.py lines 52-70): extract AR models of target and
source, inverse-filter the source, re-filter with the target's coefficients,
then normalize each sample by `0.9 / np.max(np.abs(transformed))`.  The
`noise` stream models the global numpy random state available to the call; the
body never draws from it, mirroring that `generate_excitation` is not invoked
on this path. -/
def transform_vowel (noise : ℕ → ℚ) (source_vowel target_vowel : List ℚ) : List ℚ :=
  let transformed := transform_pre source_vowel target_vowel
  transformed.map (fun v => v * (9 / 10) / max_abs transformed)

/-- The Voice Converter pipeline as the spec's §4.3 words it, steps 1-3:
AR model `a_src` from `source` and `a_tgt` from `target` with the same order;
FIR filter `(a_src, [1])` applied to `source` giving the excitation `e`; IIR
filter `([1], a_tgt)` applied to `e`.  Stated from the spec, to be compared
with `transform_pre` (the code). -/
def converter_steps_spec (source target : List ℚ) : List ℚ :=
  let a_src := (extract_ar_coefficients source AR_ORDER).1
  let a_tgt := (extract_ar_coefficients target AR_ORDER).1
  let e := lfilter a_src [1] source
  lfilter [1] a_tgt e

/-- Claim C10's reading of the transform: a function of the two coefficient
vectors, the source waveform and the normalization constant only — the gain
scalars do not appear. -/
def transform_from_coeffs (a_source a_target source : List ℚ) : List ℚ :=
  let transformed := lfilter [1] a_target (lfilter a_source [1] source)
  transformed.map (fun v => v * (9 / 10) / max_abs transformed)

/-- Whether the external LPC routine completes on `x` at the given order:
`pysptk.sptk.lpc` raises exactly on degenerate input — SPTK's `levdur` returns
-1 (turned into a RuntimeError) and the scipy path raises a LinAlgError on the
singular Toeplitz system — i.e. when a prediction error of the recursion hits
zero (within `min_det`, which is exact zero in the rational model).
`levinson_ok x m` is true iff every prediction error `E_0 = r_0, ..., E_m` is
nonzero, so the divisions of `levinson` are all well defined on this path. -/
def levinson_ok (x : List ℚ) : ℕ → Bool
  | 0 => autocorr x 0 != 0
  | m + 1 => levinson_ok x m && (levinson x (m + 1)).2 != 0

/-- The `extract_ar_coefficients` call as it actually runs (task3.py lines
31-43 including the exception flow of the `pysptk.sptk.lpc` call inside it):
`none` models the library's exception propagating out of the function — the
repository defines no exception classes and catches nothing, so this is the
only failure the function can produce.  On success the value is exactly
`extract_ar_coefficients`. -/
def extract_ar_coefficients_run (signal : List ℚ) (order : ℕ) : Option (List ℚ × ℚ) :=
  if levinson_ok signal order then some (extract_ar_coefficients signal order) else none

/-- The `transform_vowel` call as it actually runs (task3.py lines 52-70
including exception flow): the target's model is extracted first (line 55),
then the source's (line 58); an exception in either propagates out before any
filtering happens, and otherwise the filtering and normalization of lines
62-68 are pure and always return.  `none` models the propagated library
exception — the only failure the pipeline can produce, since the repository
raises nothing itself. -/
def transform_vowel_run (noise : ℕ → ℚ) (source_vowel target_vowel : List ℚ) :
    Option (List ℚ) :=
  match extract_ar_coefficients_run target_vowel AR_ORDER with
  | none => none
  | some pt =>
    match extract_ar_coefficients_run source_vowel AR_ORDER with
    | none => none
    | some ps =>
      let a_target := pt.1
      let a_source := ps.1
      let excitation := lfilter a_source [1] source_vowel
      let transformed := lfilter [1] a_target excitation
      some (transformed.map (fun v => v * (9 / 10) / max_abs transformed))

/-! ### Structural lemmas -/

theorem levinson_fst_length (x : List ℚ) : ∀ m : ℕ, ((levinson x m).1).length = m
  | 0 => rfl
  | m + 1 => by simp [levinson]

theorem lpc_length (x : List ℚ) (order : ℕ) : (lpc x order).length = order + 1 := by
  simp [lpc, levinson_fst_length]

theorem extract_ar_coefficients_fst_length (x : List ℚ) (order : ℕ) :
    ((extract_ar_coefficients x order).1).length = order + 1 := by
  simp [extract_ar_coefficients, List.length_tail, lpc_length]

theorem extract_ar_coefficients_fst_headD (x : List ℚ) (order : ℕ) :
    ((extract_ar_coefficients x order).1).headD 0 = 1 := rfl

theorem lfilterPrefix_length (b a x : List ℚ) :
    ∀ n : ℕ, (lfilterPrefix b a x n).length = n
  | 0 => rfl
  | n + 1 => by simp [lfilterPrefix, lfilterPrefix_length b a x n]

theorem lfilter_length (b a x : List ℚ) : (lfilter b a x).length = x.length :=
  lfilterPrefix_length b a x x.length

theorem lfilterPrefix_getD (b a x : List ℚ) :
    ∀ N n : ℕ, n < N →
      (lfilterPrefix b a x N).getD n 0 = lfilterOut b a x (lfilterPrefix b a x n) n := by
  intro N
  induction N with
  | zero => intro n hn; exact absurd hn (Nat.not_lt_zero n)
  | succ M ih =>
    intro n hn
    show (lfilterPrefix b a x M ++ [lfilterOut b a x (lfilterPrefix b a x M) M]).getD n 0 = _
    rcases Nat.lt_or_ge n M with h | h
    · rw [List.getD_append _ _ _ _ (by rw [lfilterPrefix_length]; exact h)]
      exact ih n h
    · have hnM : n = M := Nat.le_antisymm (Nat.lt_succ_iff.mp hn) h
      subst hnM
      rw [List.getD_append_right _ _ _ _ (by rw [lfilterPrefix_length])]
      simp [lfilterPrefix_length]

theorem lfilter_getD (b a x : List ℚ) (n : ℕ) (hn : n < x.length) :
    (lfilter b a x).getD n 0 = lfilterOut b a x (lfilterPrefix b a x n) n :=
  lfilterPrefix_getD b a x x.length n hn

theorem headD_eq_getD_zero (a : List ℚ) : a.headD 0 = a.getD 0 0 := by
  cases a <;> rfl

theorem getD_take_of_lt (w : List ℚ) (n i : ℕ) (h : i < n) :
    (w.take n).getD i 0 = w.getD i 0 := by
  rcases Nat.lt_or_ge i w.length with hi | hi
  · have hlt : i < (w.take n).length := by
      rw [List.length_take]; exact lt_min h hi
    rw [List.getD_eq_getElem _ _ hlt, List.getD_eq_getElem _ _ hi]
    exact List.getElem_take w
  · rw [List.getD_eq_default _ _ hi, List.getD_eq_default]
    rw [List.length_take]; exact le_trans (min_le_right _ _) hi

theorem lfilter_fir_getD (a w : List ℚ) (n : ℕ) (hn : n < w.length) :
    (lfilter a [1] w).getD n 0
      = ∑ k ∈ Finset.range a.length,
          if k ≤ n then a.getD k 0 * w.getD (n - k) 0 else 0 := by
  rw [lfilter_getD a [1] w n hn]
  simp [lfilterOut]

theorem lfilterOut_inverse_step (a w : List ℚ) (ha : a.getD 0 0 = 1)
    (n : ℕ) (hn : n < w.length) :
    lfilterOut [1] a (lfilter a [1] w) (w.take n) n = w.getD n 0 := by
  obtain ⟨a0, arest, rfl⟩ : ∃ a0 arest, a = a0 :: arest := by
    cases a with
    | nil => simp [List.getD] at ha
    | cons a0 arest => exact ⟨a0, arest, rfl⟩
  have ha0 : a0 = 1 := by simpa using ha
  subst ha0
  unfold lfilterOut
  rw [show ((1 : ℚ) :: arest).getD 0 0 = 1 from rfl, div_one]
  have hfir : (∑ k ∈ Finset.range ([(1 : ℚ)].length),
      if k ≤ n then [(1 : ℚ)].getD k 0 * (lfilter (1 :: arest) [1] w).getD (n - k) 0 else 0)
      = (lfilter (1 :: arest) [1] w).getD n 0 := by
    simp
  rw [hfir, lfilter_fir_getD _ w n hn]
  have htake : (∑ k ∈ Finset.range (((1 : ℚ) :: arest).length - 1),
      if k + 1 ≤ n then ((1 : ℚ) :: arest).getD (k + 1) 0 * (w.take n).getD (n - (k + 1)) 0 else 0)
      = ∑ k ∈ Finset.range arest.length,
        if k + 1 ≤ n then ((1 : ℚ) :: arest).getD (k + 1) 0 * w.getD (n - (k + 1)) 0 else 0 := by
    refine Finset.sum_congr (by simp) fun k _ => ?_
    rcases le_or_lt (k + 1) n with hk | hk
    · rw [if_pos hk, if_pos hk, getD_take_of_lt w n _ (by omega)]
    · rw [if_neg (by omega), if_neg (by omega)]
  rw [htake]
  rw [show ((1 : ℚ) :: arest).length = arest.length + 1 from rfl,
    Finset.sum_range_succ']
  simp

theorem lfilterPrefix_inverse (a w : List ℚ) (ha : a.getD 0 0 = 1) :
    ∀ n : ℕ, n ≤ w.length →
      lfilterPrefix [1] a (lfilter a [1] w) n = w.take n := by
  intro n
  induction n with
  | zero => intro _; rfl
  | succ n ih =>
    intro hn
    have hnw : n < w.length := hn
    have hprev := ih (Nat.le_of_lt hnw)
    show lfilterPrefix [1] a (lfilter a [1] w) n
        ++ [lfilterOut [1] a (lfilter a [1] w) (lfilterPrefix [1] a (lfilter a [1] w) n) n]
      = w.take (n + 1)
    rw [hprev, List.take_succ, lfilterOut_inverse_step a w ha n hnw,
      List.getElem?_eq_getElem hnw]
    rw [List.getD_eq_getElem _ _ hnw]
    rfl

theorem le_foldl_max_abs (l : List ℚ) : ∀ i : ℚ, i ≤ l.foldl (fun m v => max m (|v|)) i := by
  induction l with
  | nil => intro i; exact le_refl i
  | cons h t ih => intro i; exact le_trans (le_max_left i (|h|)) (ih (max i (|h|)))

theorem max_abs_nonneg (l : List ℚ) : 0 ≤ max_abs l := le_foldl_max_abs l 0

theorem abs_le_foldl_max_abs (l : List ℚ) :
    ∀ (i v : ℚ), v ∈ l → |v| ≤ l.foldl (fun m w => max m (|w|)) i := by
  induction l with
  | nil => intro i v hv; exact absurd hv (List.not_mem_nil v)
  | cons h t ih =>
    intro i v hv
    rcases List.mem_cons.mp hv with rfl | hv
    · exact le_trans (le_max_right i (|v|)) (le_foldl_max_abs t _)
    · exact ih _ v hv

theorem abs_le_max_abs (l : List ℚ) (v : ℚ) (hv : v ∈ l) : |v| ≤ max_abs l :=
  abs_le_foldl_max_abs l 0 v hv

theorem foldl_max_abs_map_mul (c : ℚ) (hc : 0 ≤ c) (l : List ℚ) :
    ∀ i : ℚ, (l.map (fun v => v * c)).foldl (fun m v => max m (|v|)) (i * c)
      = (l.foldl (fun m v => max m (|v|)) i) * c := by
  induction l with
  | nil => intro i; rfl
  | cons h t ih =>
    intro i
    show (t.map (fun v => v * c)).foldl (fun m v => max m (|v|)) (max (i * c) (|h * c|))
      = (t.foldl (fun m v => max m (|v|)) (max i (|h|))) * c
    rw [abs_mul, abs_of_nonneg hc, ← max_mul_of_nonneg i (|h|) hc]
    exact ih (max i (|h|))

theorem max_abs_map_mul (c : ℚ) (hc : 0 ≤ c) (l : List ℚ) :
    max_abs (l.map (fun v => v * c)) = max_abs l * c := by
  have h := foldl_max_abs_map_mul c hc l 0
  rwa [zero_mul] at h

theorem transform_pre_length (s t : List ℚ) : (transform_pre s t).length = s.length := by
  show (lfilter [1] ((extract_ar_coefficients t AR_ORDER).1)
    (lfilter ((extract_ar_coefficients s AR_ORDER).1) [1] s)).length = s.length
  rw [lfilter_length, lfilter_length]

theorem transform_vowel_length (noise : ℕ → ℚ) (s t : List ℚ) :
    (transform_vowel noise s t).length = s.length := by
  show ((transform_pre s t).map
    (fun v => v * (9 / 10) / max_abs (transform_pre s t))).length = s.length
  rw [List.length_map, transform_pre_length]

/-! ### The library's error path -/

theorem extract_run_eq_some (w : List ℚ) (order : ℕ) (p : List ℚ × ℚ)
    (h : extract_ar_coefficients_run w order = some p) :
    levinson_ok w order = true ∧ p = extract_ar_coefficients w order := by
  unfold extract_ar_coefficients_run at h
  split at h
  · exact ⟨by assumption, (Option.some.inj h).symm⟩
  · exact absurd h (by simp)

theorem levinson_ok_autocorr_ne (x : List ℚ) :
    ∀ m : ℕ, levinson_ok x m = true → autocorr x 0 ≠ 0
  | 0 => by simp [levinson_ok]
  | m + 1 => by
    intro h
    have h' : levinson_ok x m = true := by
      have hh := h
      simp only [levinson_ok, Bool.and_eq_true] at hh
      exact hh.1
    exact levinson_ok_autocorr_ne x m h'

theorem autocorr_zero_of_forall_zero (x : List ℚ) (h : ∀ n : ℕ, x.getD n 0 = 0) :
    autocorr x 0 = 0 := by
  unfold autocorr
  refine Finset.sum_eq_zero fun i _ => ?_
  rw [h i, zero_mul]

theorem max_abs_eq_zero_getD (l : List ℚ) (h : max_abs l = 0) (n : ℕ) :
    l.getD n 0 = 0 := by
  rcases Nat.lt_or_ge n l.length with hn | hn
  · have hm : l.getD n 0 ∈ l := by
      rw [List.getD_eq_getElem _ _ hn]
      exact List.getElem_mem hn
    have hle := abs_le_max_abs l _ hm
    rw [h] at hle
    exact abs_eq_zero.mp (le_antisymm hle (abs_nonneg _))
  · exact List.getD_eq_default _ _ hn

theorem lfilterPrefix_getD_stable (b a x : List ℚ) (n j : ℕ)
    (hj : j < n) (hn : n ≤ x.length) :
    (lfilterPrefix b a x n).getD j 0 = (lfilter b a x).getD j 0 := by
  rw [lfilterPrefix_getD b a x n j hj, lfilter_getD b a x j (lt_of_lt_of_le hj hn)]

theorem iir_input_zero_of_output_zero (a e : List ℚ) (ha : a.getD 0 0 = 1)
    (h : ∀ n : ℕ, (lfilter [1] a e).getD n 0 = 0) :
    ∀ n : ℕ, e.getD n 0 = 0 := by
  intro n
  rcases Nat.lt_or_ge n e.length with hn | hn
  · have h0 := h n
    rw [lfilter_getD [1] a e n hn] at h0
    unfold lfilterOut at h0
    rw [ha, div_one] at h0
    have hiir : (∑ k ∈ Finset.range (a.length - 1),
        if k + 1 ≤ n then
          a.getD (k + 1) 0 * (lfilterPrefix [1] a e n).getD (n - (k + 1)) 0
        else 0) = 0 := by
      refine Finset.sum_eq_zero fun k _ => ?_
      split
      · rw [lfilterPrefix_getD_stable [1] a e n (n - (k + 1)) (by omega) (le_of_lt hn),
          h (n - (k + 1)), mul_zero]
      · rfl
    rw [hiir, sub_zero] at h0
    simpa using h0
  · exact List.getD_eq_default _ _ hn

theorem fir_input_zero_of_output_zero (a s : List ℚ) (ha : a.getD 0 0 = 1)
    (h : ∀ n : ℕ, (lfilter a [1] s).getD n 0 = 0) :
    ∀ n : ℕ, s.getD n 0 = 0 := by
  obtain ⟨a0, arest, rfl⟩ : ∃ a0 arest, a = a0 :: arest := by
    cases a with
    | nil => simp [List.getD] at ha
    | cons a0 arest => exact ⟨a0, arest, rfl⟩
  have ha0 : a0 = 1 := by simpa using ha
  subst ha0
  intro n
  induction n using Nat.strong_induction_on with
  | _ n ih =>
    rcases Nat.lt_or_ge n s.length with hn | hn
    · have h0 := h n
      rw [lfilter_fir_getD _ s n hn,
        show ((1 : ℚ) :: arest).length = arest.length + 1 from rfl,
        Finset.sum_range_succ'] at h0
      have hz : (∑ k ∈ Finset.range arest.length,
          if k + 1 ≤ n then ((1 : ℚ) :: arest).getD (k + 1) 0 * s.getD (n - (k + 1)) 0
          else 0) = 0 := by
        refine Finset.sum_eq_zero fun k _ => ?_
        split
        · rw [ih (n - (k + 1)) (by omega), mul_zero]
        · rfl
      rw [hz, zero_add] at h0
      simpa using h0
    · exact List.getD_eq_default _ _ hn

theorem transform_pre_max_abs_ne_zero (s t : List ℚ)
    (hs : levinson_ok s AR_ORDER = true) :
    max_abs (transform_pre s t) ≠ 0 := by
  intro h0
  have htr : ∀ n : ℕ,
      (lfilter [1] ((extract_ar_coefficients t AR_ORDER).1)
        (lfilter ((extract_ar_coefficients s AR_ORDER).1) [1] s)).getD n 0 = 0 :=
    max_abs_eq_zero_getD _ h0
  have hat : ((extract_ar_coefficients t AR_ORDER).1).getD 0 0 = 1 := by
    rw [← headD_eq_getD_zero]; exact extract_ar_coefficients_fst_headD t AR_ORDER
  have has : ((extract_ar_coefficients s AR_ORDER).1).getD 0 0 = 1 := by
    rw [← headD_eq_getD_zero]; exact extract_ar_coefficients_fst_headD s AR_ORDER
  have he : ∀ n : ℕ,
      (lfilter ((extract_ar_coefficients s AR_ORDER).1) [1] s).getD n 0 = 0 :=
    iir_input_zero_of_output_zero _ _ hat htr
  have hsz : ∀ n : ℕ, s.getD n 0 = 0 :=
    fir_input_zero_of_output_zero _ _ has he
  exact levinson_ok_autocorr_ne s AR_ORDER hs (autocorr_zero_of_forall_zero s hsz)

theorem transform_vowel_run_eq (noise : ℕ → ℚ) (s t : List ℚ) :
    transform_vowel_run noise s t
      = if levinson_ok t AR_ORDER = true ∧ levinson_ok s AR_ORDER = true
        then some (transform_vowel noise s t) else none := by
  unfold transform_vowel_run extract_ar_coefficients_run
  by_cases ht : levinson_ok t AR_ORDER = true
  · by_cases hs : levinson_ok s AR_ORDER = true
    · rw [if_pos ht, if_pos hs,
        if_pos (show levinson_ok t AR_ORDER = true ∧ levinson_ok s AR_ORDER = true from
          ⟨ht, hs⟩)]
      rfl
    · rw [if_pos ht, if_neg hs,
        if_neg (show ¬(levinson_ok t AR_ORDER = true ∧ levinson_ok s AR_ORDER = true) from
          fun hc => hs hc.2)]
  · rw [if_neg ht,
      if_neg (show ¬(levinson_ok t AR_ORDER = true ∧ levinson_ok s AR_ORDER = true) from
        fun hc => ht hc.1)]

theorem transform_vowel_run_eq_some (noise : ℕ → ℚ) (s t out : List ℚ)
    (h : transform_vowel_run noise s t = some out) :
    levinson_ok t AR_ORDER = true ∧ levinson_ok s AR_ORDER = true
      ∧ out = transform_vowel noise s t := by
  rw [transform_vowel_run_eq] at h
  split at h
  · rename_i hc
    exact ⟨hc.1, hc.2, (Option.some.inj h).symm⟩
  · exact absurd h (by simp)

/-! ### Claim theorems -/

/-- Claim C1 (amended): for every waveform `w` with `len(w) > order` on which
the LPC routine succeeds (non-degenerate input: on degenerate input, such as
an all-zero waveform, the library call raises and the function returns
nothing), `extract_ar_coefficients` returns a coefficient vector of exactly
`order + 1` entries whose first entry is exactly 1, together with a separate
gain scalar. -/
theorem C1_analyze_success_coefficient_vector (w : List ℚ) (order : ℕ)
    (a : List ℚ) (g : ℚ) (hlen : order < w.length)
    (h : extract_ar_coefficients_run w order = some (a, g)) :
    a.length = order + 1 ∧ a.headD 0 = 1 := by
  obtain ⟨-, hp⟩ := extract_run_eq_some w order (a, g) h
  have ha : a = (extract_ar_coefficients w order).1 := by rw [← hp]
  rw [ha]
  exact ⟨extract_ar_coefficients_fst_length w order,
    extract_ar_coefficients_fst_headD w order⟩

/-- Claim C2: whenever the pre-normalization result is not identically zero,
the waveform returned by `transform_vowel` has peak absolute amplitude exactly
`0.9`. -/
theorem C2_transform_peak_amplitude (noise : ℕ → ℚ) (s t : List ℚ)
    (h : max_abs (transform_pre s t) ≠ 0) :
    max_abs (transform_vowel noise s t) = 9 / 10 := by
  have hM : 0 < max_abs (transform_pre s t) :=
    lt_of_le_of_ne (max_abs_nonneg _) (Ne.symm h)
  show max_abs ((transform_pre s t).map
    (fun v => v * (9 / 10) / max_abs (transform_pre s t))) = 9 / 10
  have hmap : (transform_pre s t).map
      (fun v => v * (9 / 10) / max_abs (transform_pre s t))
      = (transform_pre s t).map (fun v => v * ((9 / 10) / max_abs (transform_pre s t))) := by
    simp only [mul_div_assoc]
  rw [hmap, max_abs_map_mul _ (div_nonneg (by norm_num) (le_of_lt hM)) _,
    mul_comm]
  exact div_mul_cancel₀ _ h

/-- Claim C3 (amended): the code defines no `DegenerateSignalError` and the
normalization at line 68 has no zero guard, but an identically-zero
pre-normalization intermediate is unreachable in a completed run: whenever
`transform_vowel` actually returns a waveform, the intermediate's peak is
nonzero (so the unguarded division never divides by zero and the result is
NaN/Inf-free); an input that would produce a zero intermediate is exactly an
all-zero source, and there the program already fails inside the LPC extraction
(line 55/58) with the library's error, before line 68 is reached. -/
theorem C3_zero_intermediate_unreachable (noise : ℕ → ℚ) (s t : List ℚ) :
    (∀ out : List ℚ, transform_vowel_run noise s t = some out
        → max_abs (transform_pre s t) ≠ 0)
      ∧ (autocorr s 0 = 0 → transform_vowel_run noise s t = none) := by
  constructor
  · intro out hout
    obtain ⟨-, hoks, -⟩ := transform_vowel_run_eq_some noise s t out hout
    exact transform_pre_max_abs_ne_zero s t hoks
  · intro hs0
    have hoks : ¬levinson_ok s AR_ORDER = true :=
      fun hok => levinson_ok_autocorr_ne s AR_ORDER hok hs0
    rw [transform_vowel_run_eq]
    exact if_neg fun hc => hoks hc.2

/-- Claim C4 (amended): `extract_ar_coefficients` performs no length
validation and no `InsufficientDataError` exists: for `order ≥ len(w)` the
outcome is whatever the external LPC routine does, never a dedicated
insufficient-data failure — in particular a degenerate short waveform (e.g.
all-zero) fails with the library's same generic numerical error as any
degenerate input of any length. -/
theorem C4_no_length_check_library_error (w : List ℚ) (order : ℕ)
    (hlen : w.length ≤ order) (h0 : autocorr w 0 = 0) :
    extract_ar_coefficients_run w order = none := by
  unfold extract_ar_coefficients_run
  exact if_neg fun hok => levinson_ok_autocorr_ne w order hok h0

/-- Claim C5: `transform_vowel` follows exactly the spec's steps: AR
coefficients of source and target with the same order `AR_ORDER`; FIR filter
`(a_src, [1])` on the source giving an excitation of the source's length; IIR
filter `([1], a_tgt)` on that excitation; the pre-normalization value equals
the spec-side pipeline `converter_steps_spec`, and the returned waveform is its
normalization. -/
theorem C5_transform_follows_spec_steps (noise : ℕ → ℚ) (s t : List ℚ) :
    (lfilter ((extract_ar_coefficients s AR_ORDER).1) [1] s).length = s.length
      ∧ transform_pre s t = converter_steps_spec s t
      ∧ transform_vowel noise s t
          = (converter_steps_spec s t).map
              (fun v => v * (9 / 10) / max_abs (converter_steps_spec s t)) :=
  ⟨lfilter_length _ _ _, rfl, rfl⟩

/-- Claim C6: for every waveform `w` and coefficient vector `a` with first
entry 1, FIR filtering with `(a, [1])` followed by IIR filtering with
`([1], a)` reproduces `w` — exactly, in exact arithmetic. -/
theorem C6_inverse_then_forward_identity (a w : List ℚ) (ha : a.headD 0 = 1) :
    lfilter [1] a (lfilter a [1] w) = w := by
  have ha0 : a.getD 0 0 = 1 := by rw [← headD_eq_getD_zero]; exact ha
  show lfilterPrefix [1] a (lfilter a [1] w) (lfilter a [1] w).length = w
  rw [lfilter_length, lfilterPrefix_inverse a w ha0 w.length (le_refl _),
    List.take_length]

/-- Claim C7: the waveform returned by `transform_vowel` has the same length
as the source waveform, and every sample is finite — in the exact model, every
sample is a rational bounded in absolute value by `0.9`. -/
theorem C7_transform_length_and_bounded (noise : ℕ → ℚ) (s t : List ℚ) :
    (transform_vowel noise s t).length = s.length
      ∧ ∀ v ∈ transform_vowel noise s t, |v| ≤ 9 / 10 := by
  refine ⟨transform_vowel_length noise s t, ?_⟩
  intro v hv
  have hv' : v ∈ (transform_pre s t).map
      (fun v => v * (9 / 10) / max_abs (transform_pre s t)) := hv
  rcases List.mem_map.mp hv' with ⟨w, hw, rfl⟩
  rcases eq_or_ne (max_abs (transform_pre s t)) 0 with h0 | h0
  · rw [h0, div_zero, abs_zero]; norm_num
  · have hM : 0 < max_abs (transform_pre s t) :=
      lt_of_le_of_ne (max_abs_nonneg _) (Ne.symm h0)
    have hb : |w| ≤ max_abs (transform_pre s t) := abs_le_max_abs _ w hw
    rw [abs_div, abs_mul, abs_of_nonneg (by norm_num : (0:ℚ) ≤ 9 / 10),
      abs_of_pos hM, div_le_iff₀ hM]
    calc |w| * (9 / 10) ≤ max_abs (transform_pre s t) * (9 / 10) :=
          mul_le_mul_of_nonneg_right hb (by norm_num)
      _ = 9 / 10 * max_abs (transform_pre s t) := mul_comm _ _

/-- Claim C8: `load_vowel` returns the samples unmodified for a mono file and
exactly the first channel for a multi-channel file, and a sample rate
differing from 8000 Hz does not change the returned samples (the mismatch only
triggers the warning `load_vowel_warns`). -/
theorem C8_load_vowel_channels_and_rate (d : AudioData) (fs : ℕ)
    (xs : List ℚ) (frames : List (List ℚ)) :
    load_vowel (AudioData.mono xs) fs = xs
      ∧ load_vowel (AudioData.multi frames) fs = frames.map (fun frame => frame.headD 0)
      ∧ load_vowel d fs = load_vowel d Fs := by
  refine ⟨rfl, rfl, ?_⟩
  cases d <;> rfl

/-- Claim C9: `transform_vowel` is deterministic: its output is independent of
the random stream — the white-noise generator `generate_excitation` is never
consulted on the transform path (and `extract_ar_coefficients` takes no random
input at all). -/
theorem C9_transform_deterministic (noise₁ noise₂ : ℕ → ℚ) (s t : List ℚ) :
    transform_vowel noise₁ s t = transform_vowel noise₂ s t := rfl

/-- Claim C10: the gain scalars returned by the analyzer are never used by
`transform_vowel`: its output factors through the two coefficient vectors, the
source waveform and the normalization constant alone (`transform_from_coeffs`
takes no gain argument). -/
theorem C10_gains_unused (noise : ℕ → ℚ) (s t : List ℚ) :
    transform_vowel noise s t
      = transform_from_coeffs ((extract_ar_coefficients s AR_ORDER).1)
          ((extract_ar_coefficients t AR_ORDER).1) s := rfl

/-! ### Counterexamples and witnesses (concrete evaluations) -/

section
attribute [local semireducible] Rat.mul Rat.add Rat.sub Rat.inv
set_option maxRecDepth 100000

/-- Claim C1 counterexample: the all-zero waveform of length 12 satisfies
`len(w) > 10`, yet the analyzer does not return the claimed coefficient
vector: the LPC call raises on the degenerate input (zero autocorrelation) and
`extract_ar_coefficients` produces nothing. -/
theorem C1_counterexample_degenerate_raises :
    10 < (List.replicate 12 (0:ℚ)).length
      ∧ extract_ar_coefficients_run (List.replicate 12 (0:ℚ)) 10 = none :=
  ⟨by decide, by decide⟩

/-- Claim C3 counterexample: at the all-zero 12-sample source — the only kind
of input whose pre-normalization intermediate would be identically zero — the
program fails at the LPC extraction with the library's error; it neither
raises a `DegenerateSignalError` (none exists) nor reaches the normalization
at line 68. -/
theorem C3_counterexample_allzero_fails_in_lpc :
    extract_ar_coefficients_run (List.replicate 12 (0:ℚ)) AR_ORDER = none
      ∧ transform_vowel_run (fun _ => 0) (List.replicate 12 (0:ℚ))
          (List.replicate 12 (0:ℚ)) = none :=
  ⟨by decide, by decide⟩

/-- Claim C4 counterexample: the all-zero length-1 waveform with order 10
violates `len(w) > order`, and `extract_ar_coefficients` fails — but with the
LPC library's generic degenerate-input error (the same failure an all-zero
long signal gets), not an `InsufficientDataError`, which exists nowhere in the
code. -/
theorem C4_counterexample_degenerate_short_raises :
    ([(0:ℚ)] : List ℚ).length ≤ 10
      ∧ extract_ar_coefficients_run [(0:ℚ)] 10 = none :=
  ⟨by decide, by decide⟩

/-- Claim C1 witness: on the impulse waveform of length 11 (exceeding order
10) the LPC call succeeds, and the returned vector has 11 entries with leading
1. -/
theorem C1_analyze_success_coefficient_vector_witness :
    (10 < ((1:ℚ) :: List.replicate 10 0).length
      ∧ extract_ar_coefficients_run ((1:ℚ) :: List.replicate 10 0) 10
          = some (1 :: List.replicate 10 0, 1))
      ∧ (((1:ℚ) :: List.replicate 10 0).length = 10 + 1
        ∧ ((1:ℚ) :: List.replicate 10 0).headD 0 = 1) :=
  ⟨⟨by decide, by decide⟩,
    C1_analyze_success_coefficient_vector ((1:ℚ) :: List.replicate 10 0) 10
      (1 :: List.replicate 10 0) 1 (by decide) (by decide)⟩

/-- Claim C2 witness: on a 12-sample impulse source and target the
pre-normalization peak is nonzero and the transform's peak is exactly 0.9. -/
theorem C2_transform_peak_amplitude_witness :
    max_abs (transform_pre ((1:ℚ) :: List.replicate 11 0) ((1:ℚ) :: List.replicate 11 0)) ≠ 0
      ∧ max_abs (transform_vowel (fun _ => 0) ((1:ℚ) :: List.replicate 11 0)
          ((1:ℚ) :: List.replicate 11 0)) = 9 / 10 :=
  ⟨by decide, C2_transform_peak_amplitude (fun _ => 0) _ _ (by decide)⟩

/-- Claim C3 witness (for the amended theorem): a completed run on the
12-sample impulse has a nonzero pre-normalization peak, and the all-zero
12-sample source (zero autocorrelation) makes the run fail with the library's
error. -/
theorem C3_zero_intermediate_unreachable_witness :
    max_abs (transform_pre ((1:ℚ) :: List.replicate 11 0)
        ((1:ℚ) :: List.replicate 11 0)) ≠ 0
      ∧ transform_vowel_run (fun _ => 0) (List.replicate 12 (0:ℚ))
          (List.replicate 12 (0:ℚ)) = none :=
  ⟨(C3_zero_intermediate_unreachable (fun _ => 0) ((1:ℚ) :: List.replicate 11 0)
      ((1:ℚ) :: List.replicate 11 0)).1 ((9/10 : ℚ) :: List.replicate 11 0) (by decide),
    (C3_zero_intermediate_unreachable (fun _ => 0) (List.replicate 12 (0:ℚ))
      (List.replicate 12 (0:ℚ))).2 (by decide)⟩

/-- Claim C4 witness (for the amended theorem): the all-zero length-1 waveform
with order 10 satisfies `len(w) ≤ order` and has zero autocorrelation, and the
analyzer fails with the library's error. -/
theorem C4_no_length_check_library_error_witness :
    (([(0:ℚ)] : List ℚ).length ≤ 10 ∧ autocorr [(0:ℚ)] 0 = 0)
      ∧ extract_ar_coefficients_run [(0:ℚ)] 10 = none :=
  ⟨⟨by decide, by decide⟩,
    C4_no_length_check_library_error [(0:ℚ)] 10 (by decide) (by decide)⟩

/-- Claim C6 witness: for `a = [1, 1/2]` (leading entry 1) and `w = [1, 2, 3]`
the inverse-then-forward filtering reproduces `w` exactly. -/
theorem C6_inverse_then_forward_identity_witness :
    ([(1:ℚ), 1/2] : List ℚ).headD 0 = 1
      ∧ lfilter [1] [(1:ℚ), 1/2] (lfilter [(1:ℚ), 1/2] [1] [1, 2, 3]) = [1, 2, 3] :=
  ⟨by decide, C6_inverse_then_forward_identity [(1:ℚ), 1/2] [1, 2, 3] (by decide)⟩

end
